import Mathlib

/-!
Shallow embedding of the Kairah Studio backend (`src/main.py`), restricted to
the entitlement / commission ledger: users, affiliate accounts, payment
records, video artifacts, and the operations the specification describes
(`api_signup`, `api_generate_video`, `admin_confirm_wise` = confirmPayment,
`credit_affiliate_for_sale` = accrueCommission, `admin_affiliate_payout` =
payoutAffiliate).  Monetary amounts are modelled as rationals (the Python code
uses `float`/`Decimal`; `Decimal(x) * Decimal("0.70")` is exact decimal
arithmetic, matched here by exact rational arithmetic).  Python dictionaries
become association lists with Python's update-in-place-or-append semantics;
`time.time()` becomes an explicit `now : Nat` argument; Firebase is disabled
(`USE_FIREBASE = False`) and the external video API is unset, so `get_user`
is a plain dictionary lookup and the generated video always receives the
mock CDN URL, exactly as in the default configuration of the source.
-/

namespace Kairah

/-- Error taxonomy of the spec (section 7).  The HTTP handlers in `main.py`
map these to status codes: AlreadyExists→400 at signup, NotFound→401/404,
InvalidArgument→400, QuotaExceeded→400 (length) / 403 (free quota),
Forbidden→403 (premium templates), ServerError→500 (the `ValueError` raised
for an unknown plan in `upgrade_user_plan`). -/
inductive Err
  | AlreadyExists
  | NotFound
  | InvalidArgument
  | QuotaExceeded
  | Forbidden
  | ServerError
deriving DecidableEq, Repr

/-- A user record (`data["users"][email]` in `main.py`).  Fields that a given
code path does not write (e.g. `upgrade_user_plan` creates a user without a
`ref` or `display_name` key) take the default value here, matching the
`dict.get(key, default)` accesses in the source. -/
structure User where
  email : String
  displayName : String := ""
  plan : String := "Free"
  ref : Option String := none
  isAdmin : Bool := false
  generatedVideos : Nat := 0
  downloads : Nat := 0
  fameBoosterPaid : Bool := false
  createdAt : Nat := 0
deriving DecidableEq, Repr

/-- One payout entry appended by `admin_affiliate_payout`. -/
structure PayoutRec where
  amount : ℚ
  timestamp : Nat
deriving DecidableEq, Repr

/-- An affiliate account (`data["affiliates"][ref_code]`).  The Python code
creates the account without a `_milestone_awarded` key and tests
`aff.get("_milestone_awarded") is None`, so the flag is an `Option Bool`
(`none` = key absent). -/
structure Affiliate where
  email : String
  commission : ℚ := 0
  referred : List String := []
  bonuses : ℚ := 0
  payouts : List PayoutRec := []
  milestoneAwarded : Option Bool := none
deriving DecidableEq, Repr

/-- A payment record (`data["payments"][payment_id]`).  `planMeta` is
`metadata["plan"]` (`none` when the metadata carries no plan). -/
structure Payment where
  paymentId : String
  email : String
  method : String
  amount : ℚ
  planMeta : Option String := none
  status : String := "completed"
  timestamp : Nat := 0
deriving DecidableEq, Repr

/-- A generated video artifact (`data["videos"][video_id]`). -/
structure Video where
  videoId : String
  email : String
  prompt : String
  url : String
  length : Int
  aspect : String
  fameBooster : Bool
  timestamp : Nat
deriving DecidableEq, Repr

/-- The in-memory state `data` of `main.py` (logs omitted: they are
append-only diagnostics no operation reads back). -/
structure Ledger where
  users : List (String × User) := []
  affiliates : List (String × Affiliate) := []
  videos : List (String × Video) := []
  payments : List (String × Payment) := []
deriving DecidableEq, Repr

/-- Python `d[k] = v`: replace the value at an existing key in place,
otherwise append the new key at the end. -/
def setKey (k : String) (v : α) : List (String × α) → List (String × α)
  | [] => [(k, v)]
  | (k', v') :: rest => if k' = k then (k, v) :: rest else (k', v') :: setKey k v rest

/-- Python `d.get(k)`: lookup in an association list. -/
def getKey (k : String) : List (String × α) → Option α
  | [] => none
  | (k', v) :: rest => if k' = k then some v else getKey k rest

/-- Python truthiness of an `Optional[str]`: `None` and `""` are falsy. -/
def optStrTruthy : Option String → Bool
  | none => false
  | some s => s ≠ ""

/-- The per-plan limits of the `PLANS` table in `main.py` (prices omitted:
no ledger operation reads them). -/
structure PlanInfo where
  maxSeconds : Option Int
  videoLimit : Option Nat
deriving DecidableEq, Repr

/-- `PLANS` from `main.py`. -/
def PLANS : List (String × PlanInfo) :=
  [ ("Free", ⟨some 6, some 1⟩)
  , ("Pro", ⟨some 60, none⟩)
  , ("Diamond", ⟨some 180, none⟩)
  , ("Cinematic", ⟨some 300, none⟩)
  , ("Lifetime", ⟨none, none⟩) ]

/-- `PLANS.get(plan, PLANS["Free"])` in `api_generate_video`. -/
def planInfoOf (plan : String) : PlanInfo :=
  match getKey plan PLANS with
  | some i => i
  | none => ⟨some 6, some 1⟩

/-- `VALID_RATIOS` from `main.py`. -/
def validAspects : List String := ["16:9", "9:16", "1:1"]

/-- `FAME_BOOSTER_PRICE` (default configuration: 9.0). -/
def FAME_BOOSTER_PRICE : ℚ := 9

/-- The affiliate commission rate: `Decimal("0.70")`. -/
def COMMISSION_RATE : ℚ := 7 / 10

/-- `get_user` with `USE_FIREBASE = False`: a plain dictionary lookup. -/
def getUser (st : Ledger) (email : String) : Option User :=
  getKey email st.users

/-- `create_user_local` from `main.py`: no-op when the email exists; otherwise
insert a fresh Free user and, when a truthy referral code resolves to an
existing affiliate, append the new email to that affiliate's referred list. -/
def createUserLocal (st : Ledger) (email displayName : String)
    (referralCode : Option String) (now : Nat) : Ledger × User :=
  match getKey email st.users with
  | some u => (st, u)
  | none =>
    let u : User :=
      { email := email
        displayName := displayName
        plan := "Free"
        ref := referralCode
        createdAt := now }
    let st1 := { st with users := setKey email u st.users }
    let st2 :=
      if optStrTruthy referralCode then
        match referralCode with
        | some rc =>
          match getKey rc st1.affiliates with
          | some aff =>
            let aff' := { aff with referred := aff.referred ++ [email] }
            { st1 with affiliates := setKey rc aff' st1.affiliates }
          | none => st1
        | none => st1
      else st1
    (st2, u)

/-- `generate_affiliate_code`.  The code string is `KA-{abs(hash(email)) % 10**8}`;
Python's `hash` is process-seeded, so it is abstracted as a parameter
`codeOf`.  A fresh affiliate record is provisioned when the code is new. -/
def generateAffiliateCode (codeOf : String → String) (st : Ledger)
    (email : String) : Ledger × String :=
  let code := codeOf email
  match getKey code st.affiliates with
  | some _ => (st, code)
  | none =>
    ({ st with affiliates := setKey code { email := email } st.affiliates }, code)

/-- Result of `api_signup`. -/
inductive SignupResult
  | ok (user : User) (affiliateCode : String)
  | err (e : Err)
deriving DecidableEq, Repr

/-- `api_signup`: reject when `get_user` finds the email, otherwise create the
user and provision its own affiliate code. -/
def apiSignup (codeOf : String → String) (st : Ledger) (email displayName : String)
    (referralCode : Option String) (now : Nat) : SignupResult × Ledger :=
  match getUser st email with
  | some _ => (.err .AlreadyExists, st)
  | none =>
    let (st1, u) := createUserLocal st email displayName referralCode now
    let (st2, code) := generateAffiliateCode codeOf st1 email
    (.ok u code, st2)

/-- `upgrade_user_plan`: raise (`ServerError` = the uncaught `ValueError`) on
an unknown plan; set the plan of an existing user; otherwise mint a minimal
user record carrying the plan and zeroed counters. -/
def upgradeUserPlan (st : Ledger) (email plan : String) (now : Nat) :
    Except Err (Ledger × User) :=
  if (getKey plan PLANS).isNone then .error .ServerError
  else
    match getKey email st.users with
    | some u =>
      let u' := { u with plan := plan }
      .ok ({ st with users := setKey email u' st.users }, u')
    | none =>
      let u' : User := { email := email, plan := plan, createdAt := now }
      .ok ({ st with users := setKey email u' st.users }, u')

/-- `record_payment`: unconditionally (over)write the record at `payment_id`
with status `completed`. -/
def recordPayment (st : Ledger) (pid email method : String) (amount : ℚ)
    (planMeta : Option String) (now : Nat) : Ledger × Payment :=
  let p : Payment :=
    { paymentId := pid
      email := email
      method := method
      amount := amount
      planMeta := planMeta
      status := "completed"
      timestamp := now }
  ({ st with payments := setKey pid p st.payments }, p)

/-- The inner loop of the milestone check in `credit_affiliate_for_sale`:
how many payment records belong to `e`, are completed, and carry plan
Cinematic or Lifetime. -/
def qualifying (payments : List (String × Payment)) (e : String) : Nat :=
  (payments.filter (fun pr =>
    pr.2.email = e && pr.2.status = "completed" &&
      (pr.2.planMeta = some "Cinematic" || pr.2.planMeta = some "Lifetime"))).length

/-- `special_sales` in `credit_affiliate_for_sale`: the double loop over the
referred list and the whole payment table, counting (referred occurrence,
qualifying payment) pairs. -/
def specialSales (payments : List (String × Payment)) (referred : List String) : Nat :=
  (referred.map (qualifying payments)).sum

/-- `credit_affiliate_for_sale` (= accrueCommission): return 0 and change
nothing on an unknown code; otherwise add `saleAmount * 0.70` to the balance,
re-scan the payment table for the milestone, and on the first time the
qualifying count reaches 100 add the one-time $500 bonus and set the flag. -/
def creditAffiliateForSale (st : Ledger) (refCode : String) (saleAmount : ℚ)
    (planName : String) : ℚ × Ledger :=
  match getKey refCode st.affiliates with
  | none => (0, st)
  | some aff =>
    let commission := saleAmount * COMMISSION_RATE
    let aff1 := { aff with commission := aff.commission + commission }
    let special := specialSales st.payments aff1.referred
    let aff2 :=
      if aff1.milestoneAwarded = none ∧ 100 ≤ special then
        { aff1 with
          commission := aff1.commission + 500
          bonuses := aff1.bonuses + 500
          milestoneAwarded := some true }
      else aff1
    (commission, { st with affiliates := setKey refCode aff2 st.affiliates })

/-- Result of `admin_confirm_wise`. -/
inductive ConfirmResult
  | ok (rec : Payment)
  | err (e : Err)
deriving DecidableEq, Repr

/-- `admin_confirm_wise` (= confirmPayment): record the payment, upgrade the
plan, then resolve the referral code (`ref_code or users[email].get("ref")`,
Python truthiness) and credit the affiliate if one resolves.  The state is
returned on the error path too: `record_payment` has already mutated `data`
before an unknown plan raises. -/
def adminConfirmWise (st : Ledger) (pid email : String) (amount : ℚ)
    (plan : String) (refCode : Option String) (now : Nat) : ConfirmResult × Ledger :=
  let (st1, rec) := recordPayment st pid email "wise" amount (some plan) now
  match upgradeUserPlan st1 email plan now with
  | .error e => (.err e, st1)
  | .ok (st2, _) =>
    let ref : Option String :=
      if optStrTruthy refCode then refCode
      else (getKey email st2.users).bind User.ref
    let st3 :=
      if optStrTruthy ref then
        match ref with
        | some rc => (creditAffiliateForSale st2 rc amount plan).2
        | none => st2
      else st2
    (.ok rec, st3)

/-- Round a rational to an integer, ties to even — the behaviour of Python's
built-in `round`. -/
def rhe (q : ℚ) : ℤ :=
  let f := ⌊q⌋
  if q - f < 1 / 2 then f
  else if 1 / 2 < q - f then f + 1
  else if f % 2 = 0 then f else f + 1

/-- Python `round(x, 2)`: round at two decimal places, ties to even. -/
def round2 (q : ℚ) : ℚ := (rhe (q * 100) : ℚ) / 100

/-- Result of `admin_affiliate_payout`. -/
inductive PayoutResult
  | ok (remaining : ℚ)
  | err (e : Err)
deriving DecidableEq, Repr

/-- `admin_affiliate_payout` (= payoutAffiliate): reject unknown codes;
reject an amount above the available commission; otherwise set the balance to
`round(available - amount, 2)` and append a payout record. -/
def adminAffiliatePayout (st : Ledger) (refCode : String) (amount : ℚ)
    (now : Nat) : PayoutResult × Ledger :=
  match getKey refCode st.affiliates with
  | none => (.err .NotFound, st)
  | some aff =>
    let available := aff.commission
    if available < amount then (.err .InvalidArgument, st)
    else
      let aff' :=
        { aff with
          commission := round2 (available - amount)
          payouts := aff.payouts ++ [⟨amount, now⟩] }
      (.ok aff'.commission, { st with affiliates := setKey refCode aff' st.affiliates })

/-- The request body of `api_generate_video` (Pydantic `VideoRequest`). -/
structure VideoReq where
  userEmail : String
  prompt : String := ""
  aspect : String := "16:9"
  requestedSeconds : Option Int := none
  fameBooster : Bool := false
  templateId : Option String := none
  musicId : Option String := none
deriving DecidableEq, Repr

/-- The per-plan default clip length of `api_generate_video`'s else-branch. -/
def defaultLen (plan : String) : Int :=
  if plan = "Free" then 6
  else if plan = "Pro" then 30
  else if plan = "Diamond" then 90
  else if plan = "Cinematic" then 180
  else 60

/-- Effective-length resolution in `api_generate_video`: `if req.requested_seconds:`
(Python truthiness — `None` and `0` both take the default branch); when truthy,
reject a request above the plan's `max_seconds` when that is not `None`. -/
def resolveLength (requested : Option Int) (maxSeconds : Option Int)
    (plan : String) : Except Err Int :=
  match requested with
  | some n =>
    if n ≠ 0 then
      match maxSeconds with
      | some m => if m < n then .error .QuotaExceeded else .ok n
      | none => .ok n
    else .ok (defaultLen plan)
  | none => .ok (defaultLen plan)

/-- Result of `api_generate_video`. -/
inductive GenResult
  | ok (videoId : String) (url : String) (len : Int)
  | payRequired (price : ℚ)
  | err (e : Err)
deriving DecidableEq, Repr

/-- `api_generate_video` in the default configuration (no external video API,
so the mock CDN URL is always used).  Check order is exactly the source's:
user lookup, length, aspect ratio, premium templates/music, fame booster,
free quota, then artifact creation and counter increment. -/
def apiGenerateVideo (st : Ledger) (req : VideoReq) (now : Nat) : GenResult × Ledger :=
  match getUser st req.userEmail with
  | none => (.err .NotFound, st)
  | some user =>
    let plan := user.plan
    let maxSeconds := (planInfoOf plan).maxSeconds
    match resolveLength req.requestedSeconds maxSeconds plan with
    | .error e => (.err e, st)
    | .ok length =>
      if req.aspect ∉ validAspects then (.err .InvalidArgument, st)
      else if (optStrTruthy req.templateId || optStrTruthy req.musicId) &&
          !(plan = "Diamond" || plan = "Cinematic" || plan = "Lifetime") then
        (.err .Forbidden, st)
      else if req.fameBooster && !user.fameBoosterPaid then
        (.payRequired FAME_BOOSTER_PRICE, st)
      else if plan = "Free" ∧ 1 ≤ user.generatedVideos then
        (.err .QuotaExceeded, st)
      else
        let videoId := (req.userEmail.replace "@" "_") ++ "_" ++
          toString (st.videos.length + 1) ++ "_" ++ toString now
        let url := "https://cdn.kairahstudio.com/mock_videos/" ++ videoId ++ ".mp4"
        let v : Video :=
          { videoId := videoId
            email := req.userEmail
            prompt := req.prompt
            url := url
            length := length
            aspect := req.aspect
            fameBooster := req.fameBooster
            timestamp := now }
        let u' := { user with generatedVideos := user.generatedVideos + 1 }
        (.ok videoId url length,
         { st with
           videos := setKey videoId v st.videos
           users := setKey req.userEmail u' st.users })

/-! ### Association-list lemmas -/

theorem getKey_setKey_self (k : String) (v : α) (l : List (String × α)) :
    getKey k (setKey k v l) = some v := by
  induction l with
  | nil => simp [setKey, getKey]
  | cons hd tl ih =>
    obtain ⟨a, b⟩ := hd
    by_cases h : a = k
    · simp [setKey, getKey, h]
    · simp [setKey, getKey, h, ih]

theorem getKey_setKey_ne (k k' : String) (v : α) (l : List (String × α))
    (h : k ≠ k') : getKey k' (setKey k v l) = getKey k' l := by
  induction l with
  | nil => simp [setKey, getKey, h]
  | cons hd tl ih =>
    obtain ⟨a, b⟩ := hd
    by_cases ha : a = k
    · subst ha
      simp [setKey, getKey, h]
    · simp [setKey, getKey, ha, ih]

theorem credit_preserves_users (st : Ledger) (code : String) (amt : ℚ)
    (plan : String) : (creditAffiliateForSale st code amt plan).2.users = st.users := by
  unfold creditAffiliateForSale
  cases h : getKey code st.affiliates <;> simp

theorem credit_preserves_payments (st : Ledger) (code : String) (amt : ℚ)
    (plan : String) :
    (creditAffiliateForSale st code amt plan).2.payments = st.payments := by
  unfold creditAffiliateForSale
  cases h : getKey code st.affiliates <;> simp

/-! ### C1 — idempotency of confirmPayment -/

/-- Concrete user for the C1 replay scenario: signed up with referral code
`KA-1`. -/
def c1User : User := { email := "u@x.com", ref := some "KA-1" }

/-- Ledger with one referred user and that user's referring affiliate. -/
def c1St : Ledger :=
  { users := [("u@x.com", c1User)]
    affiliates := [("KA-1", { email := "r@x.com" })] }

/-- One `admin_confirm_wise` call for payment `p1`: $100, plan Pro. -/
def c1Step (st : Ledger) : Ledger :=
  (adminConfirmWise st "p1" "u@x.com" 100 "Pro" none 5).2

/-- Ledger after the first confirm-wise call of the C1 scenario. -/
def c1St1 : Ledger :=
  { users := [("u@x.com", { email := "u@x.com", plan := "Pro", ref := some "KA-1" })]
    affiliates := [("KA-1", { email := "r@x.com", commission := 70 })]
    videos := []
    payments := [("p1",
      { paymentId := "p1"
        email := "u@x.com"
        method := "wise"
        amount := 100
        planMeta := some "Pro"
        timestamp := 5 })] }

/-- Ledger after replaying the identical confirm-wise call. -/
def c1St2 : Ledger :=
  { users := [("u@x.com", { email := "u@x.com", plan := "Pro", ref := some "KA-1" })]
    affiliates := [("KA-1", { email := "r@x.com", commission := 140 })]
    videos := []
    payments := [("p1",
      { paymentId := "p1"
        email := "u@x.com"
        method := "wise"
        amount := 100
        planMeta := some "Pro"
        timestamp := 5 })] }

theorem c1_first_call : c1Step c1St = c1St1 := by
  simp [c1Step, c1St, c1St1, c1User, adminConfirmWise, recordPayment,
    upgradeUserPlan, creditAffiliateForSale, getUser, getKey, setKey, optStrTruthy,
    PLANS, specialSales, qualifying, COMMISSION_RATE]
  norm_num

theorem c1_second_call : c1Step c1St1 = c1St2 := by
  simp [c1Step, c1St1, c1St2, adminConfirmWise, recordPayment,
    upgradeUserPlan, creditAffiliateForSale, getUser, getKey, setKey, optStrTruthy,
    PLANS, specialSales, qualifying, COMMISSION_RATE]
  norm_num

/-- C1: replaying `confirmPayment` with the identical `paymentId` is not a
no-op.  After the first call the affiliate balance is 70 (= 100 × 0.70) and
after the replay it is 140: the commission is credited twice.  The payment
table does keep exactly one record for `p1`. -/
theorem C1_replay_double_credits :
    (getKey "KA-1" (c1Step (c1Step c1St)).affiliates).map Affiliate.commission =
      some 140 ∧
    (getKey "KA-1" (c1Step c1St).affiliates).map Affiliate.commission = some 70 ∧
    (c1Step (c1Step c1St)).payments.length = 1 := by
  rw [c1_first_call, c1_second_call]
  refine ⟨?_, ?_, ?_⟩ <;> simp [c1St1, c1St2, getKey]

/-! ### C3 — commission accrual -/

/-- C3: `accrueCommission` on an existing affiliate returns exactly
`saleAmount * 0.70` and adds exactly that commission to the balance (plus the
$500 milestone bonus in the accrual that awards it); on a referral code with
no account it returns 0 and leaves the whole ledger state unchanged, so no
account is created. -/
theorem C3_accrueCommission (st : Ledger) (code : String) (amt : ℚ)
    (plan : String) :
    (getKey code st.affiliates = none →
      creditAffiliateForSale st code amt plan = (0, st)) ∧
    (∀ aff, getKey code st.affiliates = some aff →
      (creditAffiliateForSale st code amt plan).1 = amt * (7 / 10) ∧
      ∃ aff',
        getKey code (creditAffiliateForSale st code amt plan).2.affiliates = some aff' ∧
        ((aff'.commission = aff.commission + amt * (7 / 10) ∧
            aff'.bonuses = aff.bonuses) ∨
         (aff'.commission = aff.commission + amt * (7 / 10) + 500 ∧
            aff'.bonuses = aff.bonuses + 500))) := by
  constructor
  · intro h
    simp [creditAffiliateForSale, h]
  · intro aff h
    refine ⟨?_, ?_⟩
    · simp [creditAffiliateForSale, h, COMMISSION_RATE]
    · by_cases hc : aff.milestoneAwarded = none ∧
        100 ≤ specialSales st.payments aff.referred
      · have hget : getKey code (creditAffiliateForSale st code amt plan).2.affiliates =
            some { aff with
                   commission := aff.commission + amt * (7 / 10) + 500
                   bonuses := aff.bonuses + 500
                   milestoneAwarded := some true } := by
          simp [creditAffiliateForSale, h, hc, COMMISSION_RATE, getKey_setKey_self]
        exact ⟨_, hget, Or.inr ⟨rfl, rfl⟩⟩
      · have hget : getKey code (creditAffiliateForSale st code amt plan).2.affiliates =
            some { aff with commission := aff.commission + amt * (7 / 10) } := by
          simp [creditAffiliateForSale, h, hc, COMMISSION_RATE, getKey_setKey_self]
        exact ⟨_, hget, Or.inl ⟨rfl, rfl⟩⟩

/-- C3 witness: accruing a $100 Pro sale on the affiliate `W` credits exactly
70, and accruing on the unknown code `Z` returns 0 and changes nothing. -/
def c3St : Ledger := { affiliates := [("W", { email := "w@x.com" })] }

theorem C3_accrueCommission_witness :
    creditAffiliateForSale c3St "Z" 100 "Pro" = (0, c3St) ∧
    (creditAffiliateForSale c3St "W" 100 "Pro").1 = 100 * (7 / 10) ∧
    ∃ aff',
      getKey "W" (creditAffiliateForSale c3St "W" 100 "Pro").2.affiliates = some aff' ∧
      ((aff'.commission = (0 : ℚ) + 100 * (7 / 10) ∧ aff'.bonuses = (0 : ℚ)) ∨
       (aff'.commission = (0 : ℚ) + 100 * (7 / 10) + 500 ∧
          aff'.bonuses = (0 : ℚ) + 500)) := by
  refine ⟨(C3_accrueCommission c3St "Z" 100 "Pro").1 rfl, ?_⟩
  have h := (C3_accrueCommission c3St "W" 100 "Pro").2 { email := "w@x.com" } rfl
  exact ⟨h.1, h.2⟩

/-! ### C2 — milestone bonus -/

/-- `n` completed Lifetime-plan payments, all made by the single user `u`. -/
def c2Payments : Nat → List (String × Payment)
  | 0 => []
  | n + 1 =>
    ("p" ++ toString n,
      { paymentId := "p" ++ toString n
        email := "u"
        method := "wise"
        amount := 500
        planMeta := some "Lifetime" }) :: c2Payments n

theorem c2_qualifying (n : Nat) : qualifying (c2Payments n) "u" = n := by
  induction n with
  | zero => rfl
  | succ k ih =>
    have hstep : qualifying (c2Payments (k + 1)) "u" =
        qualifying (c2Payments k) "u" + 1 := by
      simp [c2Payments, qualifying]
    rw [hstep, ih]

/-- Ledger for the C2 counterexample: one affiliate `A` with a single
referred user `u`, and 100 completed Lifetime payments all made by `u`. -/
def c2St : Ledger :=
  { affiliates := [("A", { email := "r", referred := ["u"] })]
    payments := c2Payments 100 }

/-- C2 counterexample: only one distinct referred user has a qualifying
payment, yet an accrual awards the $500 milestone bonus — the code counts
qualifying payments (100 of them, all by the same user), not distinct
referred users. -/
theorem C2_counterexample :
    (getKey "A" (creditAffiliateForSale c2St "A" 10 "Pro").2.affiliates).map
      Affiliate.bonuses = some 500 ∧
    (List.filter (fun e => 0 < qualifying c2St.payments e) ["u"]).length = 1 := by
  constructor
  · simp [creditAffiliateForSale, c2St, getKey, COMMISSION_RATE, specialSales,
      c2_qualifying, getKey_setKey_self]
  · simp [c2St, c2_qualifying]

/-- C2 (amended): the $500 milestone bonus is controlled by the number of
(referred-list entry, completed Cinematic-or-Lifetime payment) pairs — the
qualifying payments of referred users counted with multiplicity, not the
number of distinct referred users.  `accrueCommission` on an existing account
adds the bonus and sets the flag exactly when that pair count has reached 100
and the flag is still unset; the flag, once set, never changes, and no later
accrual ever adds a second bonus. -/
theorem C2_milestone_payment_pairs (st : Ledger) (code : String) (amt : ℚ)
    (plan : String) (aff : Affiliate)
    (h : getKey code st.affiliates = some aff) :
    ∃ aff',
      getKey code (creditAffiliateForSale st code amt plan).2.affiliates = some aff' ∧
      aff'.referred = aff.referred ∧
      aff'.bonuses = aff.bonuses +
        (if aff.milestoneAwarded = none ∧ 100 ≤ specialSales st.payments aff.referred
         then 500 else 0) ∧
      aff'.milestoneAwarded =
        (if aff.milestoneAwarded = none ∧ 100 ≤ specialSales st.payments aff.referred
         then some true else aff.milestoneAwarded) ∧
      (aff.milestoneAwarded ≠ none →
        aff'.bonuses = aff.bonuses ∧ aff'.milestoneAwarded = aff.milestoneAwarded) := by
  by_cases hc : aff.milestoneAwarded = none ∧
      100 ≤ specialSales st.payments aff.referred
  · have hget : getKey code (creditAffiliateForSale st code amt plan).2.affiliates =
        some { aff with
               commission := aff.commission + amt * (7 / 10) + 500
               bonuses := aff.bonuses + 500
               milestoneAwarded := some true } := by
      simp [creditAffiliateForSale, h, hc, COMMISSION_RATE, getKey_setKey_self]
    refine ⟨_, hget, rfl, by simp [hc], by simp [hc], fun hne => absurd hc.1 hne⟩
  · have hget : getKey code (creditAffiliateForSale st code amt plan).2.affiliates =
        some { aff with commission := aff.commission + amt * (7 / 10) } := by
      simp [creditAffiliateForSale, h, hc, COMMISSION_RATE, getKey_setKey_self]
    refine ⟨_, hget, rfl, by simp [hc], by simp [hc], fun _ => ⟨rfl, rfl⟩⟩

/-- Ledger for the C2 witness: a lone affiliate with no referrals. -/
def c2wSt : Ledger := { affiliates := [("B", { email := "w" })] }

theorem C2_milestone_payment_pairs_witness :
    ∃ aff',
      getKey "B" (creditAffiliateForSale c2wSt "B" 10 "Pro").2.affiliates = some aff' ∧
      aff'.bonuses = 0 ∧ aff'.milestoneAwarded = none := by
  obtain ⟨aff', hget, _, hb, hm, _⟩ :=
    C2_milestone_payment_pairs c2wSt "B" 10 "Pro" { email := "w" } rfl
  refine ⟨aff', hget, ?_, ?_⟩
  · rw [hb]
    simp [c2wSt, specialSales]
  · rw [hm]
    simp [c2wSt, specialSales]

/-! ### C4 — duplicate-email check at signup -/

/-- Ledger that already contains the user `bob@x.com`. -/
def c4St : Ledger := { users := [("bob@x.com", { email := "bob@x.com" })] }

/-- C4 counterexample: `Bob@x.com` equals the existing `bob@x.com` up to
letter case, yet signup succeeds and creates a second user — the duplicate
check of `api_signup` is an exact (case-sensitive) dictionary lookup, not a
case-insensitive comparison. -/
theorem C4_counterexample :
    "Bob@x.com".data.map Char.toLower = "bob@x.com".data.map Char.toLower ∧
    (∃ u code st',
      apiSignup (fun _ => "KA-9") c4St "Bob@x.com" "" none 0 = (.ok u code, st') ∧
      st'.users.length = 2) := by
  refine ⟨by decide, _, _, _, rfl, rfl⟩

/-- C4 (amended): the duplicate check is case-sensitive — `registerUser`
fails with `AlreadyExists` and creates no user exactly when the email matches
an existing user's email byte-for-byte; otherwise a fresh user is created. -/
theorem C4_signup_case_sensitive (codeOf : String → String) (st : Ledger)
    (email displayName : String) (rc : Option String) (now : Nat) :
    (∀ u, getKey email st.users = some u →
      apiSignup codeOf st email displayName rc now = (.err .AlreadyExists, st)) ∧
    (getKey email st.users = none →
      ∃ u code st',
        apiSignup codeOf st email displayName rc now = (.ok u code, st')) := by
  constructor
  · intro u h
    unfold apiSignup getUser
    rw [h]
  · intro h
    unfold apiSignup getUser
    rw [h]
    exact ⟨_, _, _, rfl⟩

/-- C4 witness: on the concrete ledger, signing up the exact email
`bob@x.com` fails with `AlreadyExists` and leaves the state unchanged, while
the fresh email `new@x.com` is accepted. -/
theorem C4_signup_case_sensitive_witness :
    apiSignup (fun _ => "KA-9") c4St "bob@x.com" "" none 0 =
      (.err .AlreadyExists, c4St) ∧
    (∃ u code st',
      apiSignup (fun _ => "KA-9") c4St "new@x.com" "" none 0 = (.ok u code, st')) := by
  constructor
  · exact (C4_signup_case_sensitive (fun _ => "KA-9") c4St "bob@x.com" "" none 0).1
      { email := "bob@x.com" } rfl
  · exact (C4_signup_case_sensitive (fun _ => "KA-9") c4St "new@x.com" "" none 0).2 rfl

/-! ### C5 — per-plan maximum clip length -/

theorem getKey_PLANS_cases (p : String) (i : PlanInfo)
    (hk : getKey p PLANS = some i) :
    i = ⟨some 6, some 1⟩ ∨ i = ⟨some 60, none⟩ ∨ i = ⟨some 180, none⟩ ∨
    i = ⟨some 300, none⟩ ∨ i = ⟨none, none⟩ := by
  simp only [PLANS, getKey] at hk
  split_ifs at hk <;> simp_all

theorem planInfoOf_maxSeconds_pos (p : String) (m : Int)
    (h : (planInfoOf p).maxSeconds = some m) : 0 < m := by
  unfold planInfoOf at h
  rcases hk : getKey p PLANS with _ | i <;> rw [hk] at h
  · simp at h
    omega
  · rcases getKey_PLANS_cases p i hk with h5 | h5 | h5 | h5 | h5 <;> subst h5 <;>
      simp_all <;> omega

/-- C5: when a plan's `max_seconds` is set (Free 6, Pro 60, Diamond 180,
Cinematic 300) and the requested length exceeds it, `requestVideo` fails with
`QuotaExceeded` and changes nothing; a Lifetime user is never rejected with
`QuotaExceeded`, whatever length is requested. -/
theorem C5_max_length (st : Ledger) (req : VideoReq) (now : Nat) :
    (∀ u m n, getUser st req.userEmail = some u →
      (planInfoOf u.plan).maxSeconds = some m →
      req.requestedSeconds = some n → m < n →
      apiGenerateVideo st req now = (.err .QuotaExceeded, st)) ∧
    (∀ u, getUser st req.userEmail = some u → u.plan = "Lifetime" →
      (apiGenerateVideo st req now).1 ≠ .err .QuotaExceeded) := by
  constructor
  · intro u m n hu hm hn hlt
    have hm0 : 0 < m := planInfoOf_maxSeconds_pos _ _ hm
    have hn0 : ¬ n = 0 := by omega
    simp [apiGenerateVideo, hu, resolveLength, hn, hm, hn0, hlt]
  · intro u hu hlife
    have hpi : (planInfoOf "Lifetime").maxSeconds = none := rfl
    have hok : ∃ L, resolveLength req.requestedSeconds none "Lifetime" = .ok L := by
      cases hr : req.requestedSeconds with
      | none => exact ⟨_, rfl⟩
      | some n =>
        by_cases h0 : n = 0
        · subst h0
          exact ⟨defaultLen "Lifetime", by simp [resolveLength]⟩
        · exact ⟨n, by simp [resolveLength, h0]⟩
    obtain ⟨L, hL⟩ := hok
    simp only [apiGenerateVideo, hu, hlife, hpi, hL]
    split_ifs <;> simp_all

/-- User table for the C5 witness: a Pro user and a Lifetime user. -/
def c5ProSt : Ledger := { users := [("pro@x", { email := "pro@x", plan := "Pro" })] }

def c5ProReq : VideoReq := { userEmail := "pro@x", requestedSeconds := some 100 }

def c5LifeSt : Ledger :=
  { users := [("life@x", { email := "life@x", plan := "Lifetime" })] }

def c5LifeReq : VideoReq :=
  { userEmail := "life@x", requestedSeconds := some 100000 }

theorem C5_max_length_witness :
    apiGenerateVideo c5ProSt c5ProReq 0 = (.err .QuotaExceeded, c5ProSt) ∧
    (apiGenerateVideo c5LifeSt c5LifeReq 0).1 ≠ .err .QuotaExceeded := by
  constructor
  · exact (C5_max_length c5ProSt c5ProReq 0).1 { email := "pro@x", plan := "Pro" }
      60 100 rfl rfl rfl (by decide)
  · exact (C5_max_length c5LifeSt c5LifeReq 0).2
      { email := "life@x", plan := "Lifetime" } rfl rfl

/-! ### C6 — Free plan allows exactly one video -/

/-- The checks of `api_generate_video` that run before the fame-booster and
free-quota gates: the effective length resolves, the aspect ratio is valid,
and the premium template/music gate does not fire. -/
def preChecksOk (req : VideoReq) (u : User) : Prop :=
  (∃ L, resolveLength req.requestedSeconds (planInfoOf u.plan).maxSeconds u.plan =
    .ok L) ∧
  req.aspect ∈ validAspects ∧
  ((optStrTruthy req.templateId || optStrTruthy req.musicId) &&
    !(u.plan = "Diamond" || u.plan = "Cinematic" || u.plan = "Lifetime")) = false

/-- C6: a Free-plan user with `generatedVideos = 0` succeeds on an
otherwise-valid `requestVideo` and the stored counter becomes 1; once the
counter is at least 1, an otherwise-valid request fails with `QuotaExceeded`
and the state is unchanged. -/
theorem C6_free_single_video (st : Ledger) (req : VideoReq) (u : User) (now : Nat)
    (hu : getUser st req.userEmail = some u) (hplan : u.plan = "Free")
    (hpre : preChecksOk req u)
    (hfame : req.fameBooster = false ∨ u.fameBoosterPaid = true) :
    (u.generatedVideos = 0 →
      ∃ vid url L st', apiGenerateVideo st req now = (.ok vid url L, st') ∧
        ∃ u', getKey req.userEmail st'.users = some u' ∧ u'.generatedVideos = 1) ∧
    (1 ≤ u.generatedVideos →
      apiGenerateVideo st req now = (.err .QuotaExceeded, st)) := by
  obtain ⟨⟨L, hL⟩, haspect, hprem⟩ := hpre
  have hfb : (req.fameBooster && !u.fameBoosterPaid) = false := by
    rcases hfame with hf | hf <;> simp [hf]
  rw [hplan] at hL hprem
  have hprem' : (optStrTruthy req.templateId || optStrTruthy req.musicId) = false := by
    simpa using hprem
  constructor
  · intro hg
    simp [apiGenerateVideo, hu, hL, haspect, hprem', hfb, hplan, hg]
    exact ⟨_, _, _, _, ⟨⟨rfl, rfl, rfl⟩, rfl⟩, _, getKey_setKey_self _ _ _, rfl⟩
  · intro hg
    simp [apiGenerateVideo, hu, hL, haspect, hprem', hfb, hplan, hg]

/-- Ledgers for the C6 witness: a fresh Free user and the same user after one
generated video. -/
def c6St : Ledger := { users := [("free@x", { email := "free@x" })] }

def c6St1 : Ledger :=
  { users := [("free@x", { email := "free@x", generatedVideos := 1 })] }

def c6Req : VideoReq := { userEmail := "free@x" }

theorem C6_free_single_video_witness :
    (∃ vid url L st', apiGenerateVideo c6St c6Req 0 = (.ok vid url L, st') ∧
      ∃ u', getKey "free@x" st'.users = some u' ∧ u'.generatedVideos = 1) ∧
    apiGenerateVideo c6St1 c6Req 0 = (.err .QuotaExceeded, c6St1) := by
  constructor
  · exact (C6_free_single_video c6St c6Req { email := "free@x" } 0 rfl rfl
      ⟨⟨6, rfl⟩, by decide, rfl⟩ (Or.inl rfl)).1 rfl
  · exact (C6_free_single_video c6St1 c6Req
      { email := "free@x", generatedVideos := 1 } 0 rfl rfl
      ⟨⟨6, rfl⟩, by decide, rfl⟩ (Or.inl rfl)).2 (by decide)

/-! ### C7 — affiliate payout -/

theorem rhe_intCast (k : ℤ) : rhe (k : ℚ) = k := by
  unfold rhe
  rw [Int.floor_intCast]
  norm_num

theorem round2_hundredth (k : ℤ) : round2 ((k : ℚ) / 100) = (k : ℚ) / 100 := by
  unfold round2
  have h : ((k : ℚ) / 100) * 100 = (k : ℚ) := by
    field_simp
  rw [h, rhe_intCast]

theorem c7_round : round2 ((1 : ℚ) - 3 / 1000) = 1 := by
  have h1 : ((1 : ℚ) - 3 / 1000) * 100 = 997 / 10 := by norm_num
  have h2 : (⌊(997 / 10 : ℚ)⌋ : ℤ) = 99 := by norm_num [Int.floor_eq_iff]
  unfold round2 rhe
  rw [h1, h2]
  norm_num

/-- Ledger for the C7 counterexample: one affiliate with balance 1. -/
def c7St : Ledger := { affiliates := [("A", { email := "r", commission := 1 })] }

/-- C7 counterexample: paying out 0.003 from a balance of 1 leaves the
balance at 1 — `admin_affiliate_payout` stores `round(balance - amount, 2)`,
so the balance is *not* debited by exactly the paid amount. -/
theorem C7_counterexample :
    (getKey "A" (adminAffiliatePayout c7St "A" (3 / 1000) 0).2.affiliates).map
      Affiliate.commission = some 1 ∧
    (1 : ℚ) - 3 / 1000 ≠ 1 := by
  constructor
  · have h1 : ¬ (1 : ℚ) < 3 / 1000 := by norm_num
    simp [adminAffiliatePayout, c7St, getKey, h1, getKey_setKey_self, c7_round]
  · norm_num

/-- C7 (amended): a payout above the balance fails with `InvalidArgument`
and changes nothing; a payout of at most the balance appends one timestamped
payout record and sets the balance to `balance - amount` rounded to two
decimal places (ties to even) — which equals `balance - amount` exactly
whenever that difference is a whole number of hundredths. -/
theorem C7_payout_rounds (st : Ledger) (code : String) (amt : ℚ) (now : Nat)
    (aff : Affiliate) (h : getKey code st.affiliates = some aff) :
    (aff.commission < amt →
      adminAffiliatePayout st code amt now = (.err .InvalidArgument, st)) ∧
    (amt ≤ aff.commission →
      ∃ aff',
        getKey code (adminAffiliatePayout st code amt now).2.affiliates = some aff' ∧
        aff'.commission = round2 (aff.commission - amt) ∧
        aff'.payouts = aff.payouts ++ [⟨amt, now⟩] ∧
        (∀ k : ℤ, aff.commission - amt = (k : ℚ) / 100 →
          aff'.commission = aff.commission - amt)) := by
  constructor
  · intro hlt
    simp [adminAffiliatePayout, h, hlt]
  · intro hle
    have hnot : ¬ aff.commission < amt := not_lt.mpr hle
    have hget : getKey code (adminAffiliatePayout st code amt now).2.affiliates =
        some { aff with
               commission := round2 (aff.commission - amt)
               payouts := aff.payouts ++ [⟨amt, now⟩] } := by
      simp [adminAffiliatePayout, h, hnot, getKey_setKey_self]
    refine ⟨_, hget, rfl, rfl, ?_⟩
    intro k hk
    show round2 (aff.commission - amt) = aff.commission - amt
    rw [hk]
    exact round2_hundredth k

/-- Ledger for the C7 witness: one affiliate with balance 10. -/
def c7wSt : Ledger := { affiliates := [("B", { email := "w", commission := 10 })] }

theorem C7_payout_rounds_witness :
    adminAffiliatePayout c7wSt "B" 20 0 = (.err .InvalidArgument, c7wSt) ∧
    ∃ aff',
      getKey "B" (adminAffiliatePayout c7wSt "B" 3 0).2.affiliates = some aff' ∧
      aff'.commission = round2 ((10 : ℚ) - 3) ∧
      aff'.payouts = [⟨3, 0⟩] ∧
      aff'.commission = (10 : ℚ) - 3 := by
  have herr := (C7_payout_rounds c7wSt "B" 20 0
    { email := "w", commission := 10 } rfl).1 (by norm_num)
  obtain ⟨aff', hget, hcomm, hpay, hexact⟩ := (C7_payout_rounds c7wSt "B" 3 0
    { email := "w", commission := 10 } rfl).2 (by norm_num)
  refine ⟨herr, aff', hget, hcomm, by simpa using hpay, hexact 700 (by norm_num)⟩

/-! ### C8 — fame booster requires payment first -/

/-- C8: for a user who has not paid the fame-booster fee, a request with
`fameBooster` set never changes the state (no artifact, no counter
increment), and whenever the request passes the earlier validation checks it
returns the payment-required result carrying the fixed price 9. -/
theorem C8_fame_pay_gate (st : Ledger) (req : VideoReq) (u : User) (now : Nat)
    (hu : getUser st req.userEmail = some u) (hpaid : u.fameBoosterPaid = false)
    (hfb : req.fameBooster = true) :
    (apiGenerateVideo st req now).2 = st ∧
    (preChecksOk req u → apiGenerateVideo st req now = (.payRequired 9, st)) := by
  have hfame : (req.fameBooster && !u.fameBoosterPaid) = true := by
    rw [hfb, hpaid]
    rfl
  constructor
  · rcases hres : resolveLength req.requestedSeconds (planInfoOf u.plan).maxSeconds
        u.plan with e | L <;>
      simp only [apiGenerateVideo, hu, hres] <;>
      split_ifs <;> simp_all
  · intro hpre
    obtain ⟨⟨L, hL⟩, haspect, hprem⟩ := hpre
    simp [apiGenerateVideo, hu, hL, haspect, hprem, hfame, FAME_BOOSTER_PRICE]
    simp at hprem
    tauto

/-- State and request for the C8 witness: a Pro user who never paid the
fame-booster fee asks for a fame-boosted video. -/
def c8St : Ledger := { users := [("f@x", { email := "f@x", plan := "Pro" })] }

def c8Req : VideoReq := { userEmail := "f@x", fameBooster := true }

theorem C8_fame_pay_gate_witness :
    (apiGenerateVideo c8St c8Req 0).2 = c8St ∧
    apiGenerateVideo c8St c8Req 0 = (.payRequired 9, c8St) := by
  have h := C8_fame_pay_gate c8St c8Req { email := "f@x", plan := "Pro" } 0 rfl rfl rfl
  exact ⟨h.1, h.2 ⟨⟨30, rfl⟩, by decide, rfl⟩⟩

/-! ### C9 — payment confirmation mints unknown users -/

theorem confirm_tail_users (st2 : Ledger) (r : Option String) (amt : ℚ)
    (plan : String) :
    (if optStrTruthy r then
        match r with
        | some rc => (creditAffiliateForSale st2 rc amt plan).2
        | none => st2
      else st2).users = st2.users := by
  split
  · split
    · exact credit_preserves_users _ _ _ _
    · rfl
  · rfl

/-- C9: `confirmPayment` for an email that has no user record does not fail
with `NotFound`: it succeeds and `upgrade_user_plan` mints a fresh user
carrying the paid plan, zero counters, no referral code and an unpaid
fame-booster flag. -/
theorem C9_confirm_mints_user (st : Ledger) (pid email : String) (amt : ℚ)
    (plan : String) (rc : Option String) (now : Nat)
    (hnew : getKey email st.users = none)
    (hplan : (getKey plan PLANS).isNone = false) :
    ∃ rec st', adminConfirmWise st pid email amt plan rc now = (.ok rec, st') ∧
      ∃ u', getKey email st'.users = some u' ∧ u'.plan = plan ∧
        u'.generatedVideos = 0 ∧ u'.downloads = 0 ∧ u'.ref = none ∧
        u'.fameBoosterPaid = false := by
  simp only [adminConfirmWise, recordPayment, upgradeUserPlan, hplan, hnew,
    Bool.false_eq_true, if_false]
  refine ⟨_, _, rfl, { email := email, plan := plan, createdAt := now },
    ?_, rfl, rfl, rfl, rfl, rfl⟩
  rw [confirm_tail_users]
  exact getKey_setKey_self _ _ _

/-- The empty ledger, for the C9 witness. -/
def c9St : Ledger := {}

theorem C9_confirm_mints_user_witness :
    ∃ rec st', adminConfirmWise c9St "p9" "nine@x" 50 "Diamond" none 7 =
        (.ok rec, st') ∧
      ∃ u', getKey "nine@x" st'.users = some u' ∧ u'.plan = "Diamond" ∧
        u'.generatedVideos = 0 ∧ u'.downloads = 0 ∧ u'.ref = none ∧
        u'.fameBoosterPaid = false :=
  C9_confirm_mints_user c9St "p9" "nine@x" 50 "Diamond" none 7 rfl rfl

/-! ### C10 — requestedSeconds = 0 behaves as absent -/

/-- C10: `requestVideo` with `requestedSeconds = 0` behaves exactly like a
request with no `requestedSeconds` at all (Python truthiness): the length
resolution performs no maximum check and yields the per-plan default, and a
successful call stores an artifact with that default length. -/
theorem C10_zero_requested_seconds (st : Ledger) (req : VideoReq) (now : Nat) :
    apiGenerateVideo st { req with requestedSeconds := some 0 } now =
      apiGenerateVideo st { req with requestedSeconds := none } now ∧
    (∀ ms plan, resolveLength (some 0) ms plan = .ok (defaultLen plan)) ∧
    (∀ u vid url L st', getUser st req.userEmail = some u →
      apiGenerateVideo st { req with requestedSeconds := some 0 } now =
        (.ok vid url L, st') → L = defaultLen u.plan) := by
  have hres : ∀ ms plan, resolveLength (some 0) ms plan = .ok (defaultLen plan) := by
    intro ms plan
    simp [resolveLength]
  refine ⟨?_, hres, ?_⟩
  · have hres2 : ∀ ms plan, resolveLength (some 0) ms plan =
        resolveLength none ms plan := by
      intro ms plan
      simp [resolveLength]
    simp only [apiGenerateVideo, hres2]
  · intro u vid url L st' hu heq
    simp only [apiGenerateVideo, hu, hres] at heq
    split_ifs at heq <;> simp_all

/-- State and request for the C10 witness: a fresh Free-plan user asking for
a zero-length clip. -/
def c10St : Ledger := { users := [("z@x", { email := "z@x" })] }

def c10Req : VideoReq := { userEmail := "z@x" }

theorem C10_zero_requested_seconds_witness :
    apiGenerateVideo c10St { c10Req with requestedSeconds := some 0 } 0 =
      apiGenerateVideo c10St { c10Req with requestedSeconds := none } 0 ∧
    resolveLength (some 0) (some 6) "Free" = .ok (defaultLen "Free") ∧
    ∃ vid url st',
      apiGenerateVideo c10St { c10Req with requestedSeconds := some 0 } 0 =
        (.ok vid url (defaultLen "Free"), st') := by
  obtain ⟨h1, h2, h3⟩ := C10_zero_requested_seconds c10St c10Req 0
  have hev : ∃ vid url L st',
      apiGenerateVideo c10St { c10Req with requestedSeconds := some 0 } 0 =
        (.ok vid url L, st') := ⟨_, _, _, _, rfl⟩
  obtain ⟨vid, url, L, st', hev⟩ := hev
  have hL := h3 { email := "z@x" } vid url L st' rfl hev
  exact ⟨h1, h2 (some 6) "Free", vid, url, st', hL ▸ hev⟩

end Kairah
